import Mathlib

/-!
Verification of the `mococa/gamedev-utils` repository against its
natural-language specification.

The development shallowly embeds the relevant parts of the repository:

* `binary-codec/binary-codec.ts` — schema-driven binary encoding/decoding
  (`BaseBinaryCodec.encodeInto` / `decodeInto`, `BinaryPrimitives`).
* `src/ecs/system-builder.ts` — the staged `SystemBuilder`, compilation
  (`buildAndRegister`) and the `ExecutableSystem.execute` loop.
* The legacy builder/executable-system variant shipped alongside it
  (`SystemBuilder.with`, per-execute proxy creation).
* `src/ecs/entity-handle.ts` — both `EntityHandle` variants (the optimized
  one with direct store access, and the delegating one).
* The `World` / component store / query engine, whose implementation file is
  not part of the corpus; those definitions are modelled from the
  specification (§3, §4.1, §4.3, §4.4) and are marked as such.

Machine integers are modelled as `Nat` with explicit `% 2^w` where the
JavaScript `DataView` primitives wrap; `f32` field values are modelled at the
bit-pattern level (a `Nat` below `2^32`), which captures exactly the
"exactly representable 32-bit float" case of the specification.
-/

namespace GamedevUtils

/-! ## Binary codec (`binary-codec/binary-codec.ts`) -/

/-- The primitive field kinds provided by `BinaryPrimitives`:
`u8`, `u16` (big-endian) and `f32` (big-endian, modelled by bit pattern). -/
inductive FieldKind where
  | u8
  | u16
  | f32
  deriving DecidableEq, Repr

namespace FieldKind

/-- The `size` member of each primitive field descriptor:
`u8.size = 1`, `u16.size = 2`, `f32.size = 4`. -/
def size : FieldKind → Nat
  | .u8 => 1
  | .u16 => 2
  | .f32 => 4

/-- The numeric range a value must lie in to be stored without wrapping:
`[0, 256)` for `u8`, `[0, 65536)` for `u16`, and every 32-bit pattern for
`f32`. -/
def bound : FieldKind → Nat
  | .u8 => 2 ^ 8
  | .u16 => 2 ^ 16
  | .f32 => 2 ^ 32

end FieldKind

/-- Big-endian byte serialization of `v` into `k` bytes, wrapping modulo
`256^k` exactly as the `DataView.setUintN`/`setFloat32` primitives do
(the most significant byte first, `false` endianness flag in the source). -/
def bytesBE : Nat → Nat → List Nat
  | 0, _ => []
  | k + 1, v => bytesBE k (v / 256) ++ [v % 256]

/-- Big-endian byte deserialization, the semantics of
`DataView.getUintN`/`getFloat32` with the `false` endianness flag. -/
def fromBytesBE (bs : List Nat) : Nat :=
  bs.foldl (fun acc b => acc * 256 + b) 0

/-- The `write` member of a primitive field descriptor, as the list of bytes
it stores at its offset (`dv.setUint8` / `dv.setUint16(…, false)` /
`dv.setFloat32(…, false)`). -/
def FieldKind.write (k : FieldKind) (v : Nat) : List Nat :=
  bytesBE k.size v

/-- The `read` member of a primitive field descriptor: reassemble the bytes of the field
big-endian. -/
def FieldKind.read (k : FieldKind) (bs : List Nat) : Nat :=
  fromBytesBE (bs.take k.size)

/-- A schema is the ordered list of the kinds of its fields
(`Object.keys(schema)` iteration order in the source). -/
def Schema := List FieldKind

/-- Source `getSchemaSize`: the total byte size of a schema, the sum of the declared
field widths. -/
def getSchemaSize (schema : Schema) : Nat :=
  (schema.map FieldKind.size).sum

/-- Source `BaseBinaryCodec.encodeInto`: allocate a right-sized buffer and write each
field at its running offset in schema order. The buffer is modelled as the
list of its bytes. -/
def encodeInto (schema : Schema) (data : List Nat) : List Nat :=
  match schema, data with
  | [], _ => []
  | _, [] => []
  | k :: ks, v :: vs => k.write v ++ encodeInto ks vs

/-- The field-reading loop of `BaseBinaryCodec.decodeInto`: read each field at
its running offset in schema order, assigning `target[k]` one field at a
time. -/
def decodeFields (schema : Schema) (buf : List Nat) : List Nat :=
  match schema with
  | [] => []
  | k :: ks => k.read buf :: decodeFields ks (buf.drop k.size)

/-- Source `BaseBinaryCodec.decodeInto`: validate the buffer size *before* the read
loop (`throw new RangeError` when `buf.byteLength < expectedSize`), then
overwrite the target fields in schema order. The result pairs the raised
error message, if any, with the state of the target object when control
leaves the function. -/
def decodeInto (schema : Schema) (buf : List Nat) (target : List Nat) :
    Option String × List Nat :=
  let expectedSize := getSchemaSize schema
  if buf.length < expectedSize then
    (some "Buffer too small", target)
  else
    (none, decodeFields schema buf)

/-! ## ECS world model

The `World` and component-store implementation file is not part of the
corpus (only its callers, tests and README are), so the definitions below
are modelled from the specification; the system builder, executable system
and entity handles further down are embedded from their source files. -/

/-- The error taxonomy of §7 of the specification. -/
inductive EcsError where
  | CapacityExceeded
  | InvalidEntity
  | MissingComponent
  | TooManyComponents
  deriving DecidableEq, Repr

/-- Modelled from the spec: the `World` state (§3) — entity capacity, the
allocator liveness/free-list, one 32-bit classification mask per entity
slot, the monotonically increasing structural version counter, the query
cache (canonical key, captured version, entity list), the per-component
per-entity field storage, the registered system keys, and an allocation
counter instrumenting proxy-object creation. -/
structure World where
  maxEntities : Nat
  alive : List Bool
  masks : List Nat
  freeList : List Nat
  version : Nat
  cache : List (List Nat × Nat × List Nat)
  stores : List (List (List Nat))
  systems : List (List Nat)
  allocCount : Nat
  deriving DecidableEq, Repr

namespace World

/-- The classification mask of entity slot `e`. -/
def maskOf (w : World) (e : Nat) : Nat := w.masks.getD e 0

/-- Modelled from the spec: `isAlive(e)` — allocator liveness, O(1). -/
def isAliveB (w : World) (e : Nat) : Bool := w.alive.getD e false

/-- Modelled from the spec: `has(e, component)` — O(1) test of the
classification-mask bit assigned to the component. -/
def has (w : World) (e c : Nat) : Bool := (w.maskOf e).testBit c

/-- Modelled from the spec: `spawn()` — pop the most recently freed
identifier (stack-like reuse), mark it live, bump the structural version;
`CapacityExceeded` when no identifier remains. -/
def spawn (w : World) : Except EcsError (Nat × World) :=
  match w.freeList with
  | [] => .error .CapacityExceeded
  | e :: rest =>
      .ok (e, { w with
        alive := w.alive.set e true
        freeList := rest
        version := w.version + 1 })

/-- Modelled from the spec: `despawn(e)` — clear the classification mask,
return the identifier to the free list, bump the structural version;
`InvalidEntity` on an already-dead entity. -/
def despawn (w : World) (e : Nat) : Except EcsError World :=
  if w.isAliveB e then
    .ok { w with
      alive := w.alive.set e false
      masks := w.masks.set e 0
      freeList := e :: w.freeList
      version := w.version + 1 }
  else .error .InvalidEntity

/-- Total wrapper of `despawn` used when a system callback despawns the
cursor entity (the proxy method `despawn()` delegates to `world.despawn`). -/
def despawnD (w : World) (e : Nat) : World := ((w.despawn e).toOption).getD w

/-- Modelled from the spec: the structure-of-arrays read path of a store —
the field values of entity `e` in the store of component `c`, with no
has-component validation (the optimized `EntityHandle` documents that
direct store access skips validation). -/
def storeGet (w : World) (c e : Nat) : List Nat :=
  (w.stores.getD c []).getD e []

/-- Modelled from the spec: the full-overwrite store write path
(`ComponentStore.set`) — every field of entity `e` replaced, no
validation. -/
def storeSet (w : World) (c e : Nat) (data : List Nat) : World :=
  { w with stores := w.stores.set c ((w.stores.getD c []).set e data) }

/-- Modelled from the spec: the partial store write path
(`ComponentStore.update`) — only the given (field index, value) pairs are
overwritten, untouched fields retain prior values, no validation. -/
def storeUpdate (w : World) (c e : Nat) (part : List (Nat × Nat)) : World :=
  w.storeSet c e (part.foldl (fun row p => row.set p.1 p.2) (w.storeGet c e))

/-- Modelled from the spec: `add(e, component, data)` — write the field
values via the store, set the classification bit, bump the structural
version. -/
def add (w : World) (e c : Nat) (data : List Nat) : World :=
  let w1 := w.storeSet c e data
  { w1 with
    masks := w1.masks.set e (w1.maskOf e ||| (1 <<< c))
    version := w1.version + 1 }

/-- Modelled from the spec: `remove(e, component)` — clear the
classification bit (data not zeroed), bump the structural version. -/
def remove (w : World) (e c : Nat) : World :=
  { w with
    masks := w.masks.set e (w.maskOf e &&& (4294967295 ^^^ (1 <<< c)))
    version := w.version + 1 }

/-- Modelled from the spec: `get(e, component)` through the `World` API —
validated (`MissingComponent` when the entity lacks the component), then
the pooled store read. -/
def get (w : World) (e c : Nat) : Except EcsError (List Nat) :=
  if w.has e c then .ok (w.storeGet c e) else .error .MissingComponent

/-- Modelled from the spec: `getMutable(e, component)` through the `World`
API — validated, then an owned copy of the store row. -/
def getMutable (w : World) (e c : Nat) : Except EcsError (List Nat) :=
  if w.has e c then .ok (w.storeGet c e) else .error .MissingComponent

/-- Modelled from the spec: `set(e, component, data)` through the `World`
API — validated full overwrite. -/
def set (w : World) (e c : Nat) (data : List Nat) : Except EcsError World :=
  if w.has e c then .ok (w.storeSet c e data) else .error .MissingComponent

/-- Modelled from the spec: `update(e, component, partialData)` through the
`World` API — validated partial overwrite. -/
def update (w : World) (e c : Nat) (part : List (Nat × Nat)) :
    Except EcsError World :=
  if w.has e c then .ok (w.storeUpdate c e part) else .error .MissingComponent

end World

/-! ## Query engine (modelled from the spec, §4.4) -/

/-- Ascending insertion into a sorted list of bit indices. -/
def insertSorted (x : Nat) : List Nat → List Nat
  | [] => [x]
  | y :: ys => if x ≤ y then x :: y :: ys else y :: insertSorted x ys

/-- Modelled from the spec: `_getQueryMaskKey` — canonicalize the requested
component set by sorting on assigned bit index, so that `query(A,B)` and
`query(B,A)` hit the same cache entry. -/
def canonicalKey (cs : List Nat) : List Nat :=
  cs.foldr insertSorted []

/-- Modelled from the spec: `getQueryMask` — the required bitmask, the OR of
the classification bits of the requested components. -/
def maskOfList (cs : List Nat) : Nat :=
  cs.foldr (fun c m => (1 <<< c) ||| m) 0

namespace World

/-- Modelled from the spec: the cache-miss scan — test every live entity
slot in ascending identifier order against the required bitmask via bitwise
AND. -/
def matching (w : World) (mask : Nat) : List Nat :=
  (List.range w.maxEntities).filter
    (fun e => w.isAliveB e && ((w.maskOf e &&& mask) == mask))

/-- Modelled from the spec: `_queryByMaskKey` — on a cache hit whose
captured structural version equals the current version, return the stored
list without recomputation; otherwise recompute the matching list and store
it back with the current version. -/
def queryByMaskKey (w : World) (key : List Nat) (mask : Nat) :
    List Nat × World :=
  match w.cache.find? (fun ent => ent.1 == key) with
  | some ent =>
      if ent.2.1 == w.version then (ent.2.2, w)
      else
        let l := w.matching mask
        (l, { w with cache := (key, w.version, l) :: w.cache })
  | none =>
      let l := w.matching mask
      (l, { w with cache := (key, w.version, l) :: w.cache })

/-- Modelled from the spec: `query(...components)` — canonicalize, then go
through the cache. -/
def query (w : World) (cs : List Nat) : List Nat × World :=
  w.queryByMaskKey (canonicalKey cs) (maskOfList cs)

/-- The cache-validity invariant of §3: every cache entry captured a version
no newer than the current one, and an entry whose captured version equals
the current version holds exactly the currently matching entity list of its
canonical key. -/
def cacheOK (w : World) : Prop :=
  ∀ ent ∈ w.cache,
    ent.2.1 ≤ w.version ∧
    (ent.2.1 = w.version → ent.2.2 = w.matching (maskOfList ent.1))

end World


/-! ## System compiler (`src/ecs/system-builder.ts`) -/

/-- The observable events of one `execute` call: fetching the matching
entity list, constructing a proxy object (with its allocation id),
repositioning the cursor, evaluating the filter predicate, and invoking the
user callback with a proxy, the cursor entity and the deltaTime. -/
inductive ExecEvent where
  | fetch (entities : List Nat)
  | allocProxy (id : Nat)
  | setEid (e : Nat)
  | predEval (e : Nat) (r : Bool)
  | call (proxy : Nat) (e : Nat) (dt : Int)
  deriving DecidableEq, Repr

/-- Source `ExecutableSystem`: the components, the precomputed canonical query key
and query mask, the reusable cursor-view proxy (identified by its
allocation id), the optional filter predicate and the user callback. -/
structure ExecutableSystem where
  components : List Nat
  queryMaskKey : List Nat
  queryMask : Nat
  proxyId : Nat
  conditionPredicate : Option (World → Nat → Bool)
  userCallback : World → Nat → Int → World

/-- Source `createProxyEntity`: builds one proxy object; modelled as drawing a
fresh allocation id from the allocation counter. -/
def createProxyEntity (alloc : Nat) : Nat × Nat := (alloc, alloc + 1)

/-- The `ExecutableSystem` constructor: store the captured data and create
the proxy entity exactly once
(`this.proxyEntity = this.createProxyEntity()`). -/
def ExecutableSystem.construct (components queryMaskKey : List Nat)
    (queryMask : Nat) (pred : Option (World → Nat → Bool))
    (cb : World → Nat → Int → World) (alloc : Nat) :
    ExecutableSystem × Nat :=
  let pa := createProxyEntity alloc
  ({ components := components, queryMaskKey := queryMaskKey,
     queryMask := queryMask, proxyId := pa.1,
     conditionPredicate := pred, userCallback := cb }, pa.2)

/-- The fast path of `ExecutableSystem.execute` (no predicate set): for each
entity, reposition the cursor and invoke the callback with the stored
proxy, the deltaTime and the owning world. -/
def execFast (cb : World → Nat → Int → World) (proxy : Nat) (dt : Int) :
    List Nat → World → World × List ExecEvent
  | [], w => (w, [])
  | e :: es, w =>
      let w1 := cb w e dt
      let rest := execFast cb proxy dt es w1
      (rest.1, .setEid e :: .call proxy e dt :: rest.2)

/-- The filtered path of `ExecutableSystem.execute`: reposition the cursor,
evaluate the predicate on the cursor view, and invoke the callback only
when it returned true. -/
def execFiltered (p : World → Nat → Bool) (cb : World → Nat → Int → World)
    (proxy : Nat) (dt : Int) : List Nat → World → World × List ExecEvent
  | [], w => (w, [])
  | e :: es, w =>
      if p w e then
        let w1 := cb w e dt
        let rest := execFiltered p cb proxy dt es w1
        (rest.1,
          .setEid e :: .predEval e true :: .call proxy e dt :: rest.2)
      else
        let rest := execFiltered p cb proxy dt es w
        (rest.1, .setEid e :: .predEval e false :: rest.2)

/-- Source `ExecutableSystem.execute(deltaTime)`: fetch the (possibly cached)
matching entity list once via `_queryByMaskKey`, then run the fast path
when no predicate was set and the filtered path otherwise. No proxy is
constructed here. -/
def ExecutableSystem.execute (sys : ExecutableSystem) (w : World)
    (dt : Int) : World × List ExecEvent :=
  let q := w.queryByMaskKey sys.queryMaskKey sys.queryMask
  match sys.conditionPredicate with
  | none =>
      let r := execFast sys.userCallback sys.proxyId dt q.1 q.2
      (r.1, .fetch q.1 :: r.2)
  | some p =>
      let r := execFiltered p sys.userCallback sys.proxyId dt q.1 q.2
      (r.1, .fetch q.1 :: r.2)

/-- Modelled from the spec (§4.5), for the refinement claim C1: a single
loop over the fetched list — set the cursor index, evaluate the optional
predicate (skip if false), invoke the callback. -/
def execSpecLoop (pred : Option (World → Nat → Bool))
    (cb : World → Nat → Int → World) (proxy : Nat) (dt : Int) :
    List Nat → World → World × List ExecEvent
  | [], w => (w, [])
  | e :: es, w =>
      match pred with
      | none =>
          let w1 := cb w e dt
          let rest := execSpecLoop none cb proxy dt es w1
          (rest.1, .setEid e :: .call proxy e dt :: rest.2)
      | some p =>
          if p w e then
            let w1 := cb w e dt
            let rest := execSpecLoop (some p) cb proxy dt es w1
            (rest.1,
              .setEid e :: .predEval e true :: .call proxy e dt :: rest.2)
          else
            let rest := execSpecLoop (some p) cb proxy dt es w
            (rest.1, .setEid e :: .predEval e false :: rest.2)

/-- Modelled from the spec (§4.5): `execute` as the spec words it — fetch
the (possibly cached) matching list, then the single loop. -/
def ExecutableSystem.executeSpec (sys : ExecutableSystem) (w : World)
    (dt : Int) : World × List ExecEvent :=
  let q := w.queryByMaskKey sys.queryMaskKey sys.queryMask
  let r := execSpecLoop sys.conditionPredicate sys.userCallback sys.proxyId
    dt q.1 q.2
  (r.1, .fetch q.1 :: r.2)

/-- Source `SystemBuilder` state: the owning world, the queried components, and
the optional field mappings, user callback and condition predicate. -/
structure SystemBuilder where
  world : World
  components : List Nat
  fieldMappings : Option (List (String × List String))
  userCallback : Option (World → Nat → Int → World)
  conditionPredicate : Option (World → Nat → Bool)

/-- The outcome of invoking a builder stage on a receiver: the state of the
receiver after the call, the builder value the stage returned, and whether
the returned builder is the receiver object itself (a "return this" in the
source) rather than a freshly constructed one. -/
structure StageResult where
  receiver : SystemBuilder
  result : SystemBuilder
  resultIsReceiver : Bool

/-- Source `SystemBuilder.query(...components)`: constructs and returns a new
builder carrying the given components and the receiver field mappings,
callback and predicate; the receiver is not touched. -/
def SystemBuilder.query (b : SystemBuilder) (cs : List Nat) : StageResult :=
  { receiver := b
    result := { world := b.world, components := cs,
                fieldMappings := b.fieldMappings,
                userCallback := b.userCallback,
                conditionPredicate := b.conditionPredicate }
    resultIsReceiver := false }

/-- Source `SystemBuilder.fields(fieldMappings)`: constructs and returns a new
builder carrying the given field mappings; the receiver is not touched. -/
def SystemBuilder.fields (b : SystemBuilder)
    (fm : List (String × List String)) : StageResult :=
  { receiver := b
    result := { b with fieldMappings := some fm }
    resultIsReceiver := false }

/-- Source `SystemBuilder.when(predicate)`: throws when `.fields()` has not been
called yet; otherwise constructs and returns a new builder carrying the
predicate; the receiver is not touched. -/
def SystemBuilder.when (b : SystemBuilder) (p : World → Nat → Bool) :
    Except String StageResult :=
  match b.fieldMappings with
  | none => .error "Must call .fields() before .when()"
  | some _ =>
      .ok { receiver := b
            result := { b with conditionPredicate := some p }
            resultIsReceiver := false }

/-- Source `SystemBuilder.buildAndRegister()`: reject a missing callback, then
missing field mappings; otherwise initialize the query cache
(`world.query(...components)`), precompute the canonical query key and
mask, construct the executable system (creating its proxy once, at build
time) and register it with the world. -/
def SystemBuilder.buildAndRegister (b : SystemBuilder) :
    Except String (ExecutableSystem × World) :=
  match b.userCallback with
  | none => .error "System callback must be set"
  | some cb =>
      match b.fieldMappings with
      | none => .error "Field mappings must be set"
      | some _ =>
          let q := b.world.query b.components
          let key := canonicalKey b.components
          let mask := maskOfList b.components
          let sc := ExecutableSystem.construct b.components key mask
            b.conditionPredicate cb q.2.allocCount
          .ok (sc.1,
            { q.2 with
              allocCount := sc.2
              systems := q.2.systems ++ [key] })

/-- Source `SystemBuilder.run(callback)`: builds a refined builder with the
callback attached and compiles it; the receiver is returned untouched next
to the compilation outcome. -/
def SystemBuilder.run (b : SystemBuilder)
    (cb : World → Nat → Int → World) :
    SystemBuilder × Except String (ExecutableSystem × World) :=
  (b, SystemBuilder.buildAndRegister { b with userCallback := some cb })

/-! ## The legacy builder and executable system kept in the corpus -/

/-- The legacy `SystemBuilder` state: only the world and the components. -/
structure LegacySystemBuilder where
  world : World
  components : List Nat
  deriving DecidableEq, Repr

/-- Stage outcome for the legacy builder, as for `StageResult`. -/
structure LegacyStageResult where
  receiver : LegacySystemBuilder
  result : LegacySystemBuilder
  resultIsReceiver : Bool
  deriving DecidableEq, Repr

/-- The legacy `SystemBuilder.with(...components)`: assigns
`this.components` in place and returns `this` — the receiver is mutated
and the returned builder is the same instance. -/
def LegacySystemBuilder.withComponents (b : LegacySystemBuilder)
    (cs : List Nat) : LegacyStageResult :=
  { receiver := { b with components := cs }
    result := { b with components := cs }
    resultIsReceiver := true }

/-- The legacy `ExecutableSystem`: components and callback; no predicate,
no stored proxy. -/
structure LegacyExecutableSystem where
  components : List Nat
  userCallback : World → Nat → Int → World

/-- The legacy `ExecutableSystem.execute(deltaTime)`: query through
`world.query(...)`, then create a proxy entity *inside this call*
(`const proxyEntity = this.createProxyEntity()`), then run the loop with
that per-execute proxy. -/
def LegacyExecutableSystem.execute (sys : LegacyExecutableSystem)
    (w : World) (dt : Int) (alloc : Nat) :
    (World × List ExecEvent) × Nat :=
  let q := w.query sys.components
  let pa := createProxyEntity alloc
  let r := execFast sys.userCallback pa.1 dt q.1 q.2
  ((r.1, .fetch q.1 :: .allocProxy pa.1 :: r.2), pa.2)

/-! ## Entity handles (`src/ecs/entity-handle.ts`) -/

namespace EntityHandle

/-- The optimized `EntityHandle.get`: direct store access through the
cached component index
(`this.world.componentStoresArray[index].get(this._id)`) — no
has-component validation, no error path. -/
def get (w : World) (id c : Nat) : List Nat := w.storeGet c id

/-- The optimized `EntityHandle.getMutable`: direct store access, owned
copy, no validation. -/
def getMutable (w : World) (id c : Nat) : List Nat := w.storeGet c id

/-- The optimized `EntityHandle.set`: direct store write, no validation. -/
def set (w : World) (id c : Nat) (data : List Nat) : World :=
  w.storeSet c id data

/-- The optimized `EntityHandle.update`: direct partial store write, no
validation. -/
def update (w : World) (id c : Nat) (part : List (Nat × Nat)) : World :=
  w.storeUpdate c id part

end EntityHandle

namespace EntityHandleV2

/-- The delegating `EntityHandle.get` (second variant in the file):
forwards to the validated `World.get`. -/
def get (w : World) (id c : Nat) : Except EcsError (List Nat) := w.get id c

/-- The delegating `EntityHandle.getMutable`. -/
def getMutable (w : World) (id c : Nat) : Except EcsError (List Nat) :=
  w.getMutable id c

/-- The delegating `EntityHandle.set`. -/
def set (w : World) (id c : Nat) (data : List Nat) :
    Except EcsError World :=
  w.set id c data

/-- The delegating `EntityHandle.update`. -/
def update (w : World) (id c : Nat) (part : List (Nat × Nat)) :
    Except EcsError World :=
  w.update id c part

end EntityHandleV2

/-! ## Trace projections and concrete fixtures -/

/-- The entities to which the cursor was repositioned, in order. -/
def setEids (evs : List ExecEvent) : List Nat :=
  evs.filterMap fun ev =>
    match ev with
    | .setEid e => some e
    | _ => none

/-- The proxy ids passed to the user callback, in order. -/
def callProxies (evs : List ExecEvent) : List Nat :=
  evs.filterMap fun ev =>
    match ev with
    | .call pr _ _ => some pr
    | _ => none

/-- The (entity, deltaTime) callback invocations, in order. -/
def callRecords (evs : List ExecEvent) : List (Nat × Int) :=
  evs.filterMap fun ev =>
    match ev with
    | .call _ e dt => some (e, dt)
    | _ => none

/-- Whether an event is the fetch of the matching entity list. -/
def isFetch : ExecEvent → Bool
  | .fetch _ => true
  | _ => false

/-- Whether an event is a proxy construction. -/
def isAllocProxy : ExecEvent → Bool
  | .allocProxy _ => true
  | _ => false

/-- A concrete world: two live entities, slot 0 carrying components 0 and 1
(mask 3), slot 1 carrying only component 0 (mask 1), empty cache. -/
def sampleWorld : World :=
  { maxEntities := 2, alive := [true, true], masks := [3, 1],
    freeList := [], version := 5, cache := [], stores := [[[7, 8]], []],
    systems := [], allocCount := 0 }

/-- A concrete world whose entity 0 is alive but carries no component,
while the store of component 0 still holds stale values `[9, 9]` in its
slot 0. -/
def staleWorld : World :=
  { maxEntities := 1, alive := [true], masks := [0], freeList := [],
    version := 0, cache := [], stores := [[[9, 9]]], systems := [],
    allocCount := 0 }

/-- A callback that despawns the cursor entity, as the despawn-on-death
systems of the spec (§8, scenario B) do. -/
def despawnCallback : World → Nat → Int → World :=
  fun w e _ => w.despawnD e

/-- A compiled system over component 0 whose callback despawns each
visited entity. -/
def despawnSystem : ExecutableSystem :=
  (ExecutableSystem.construct [0] (canonicalKey [0])
    (maskOfList [0]) none despawnCallback 0).1

/-- A legacy system over component 0 with a callback that leaves the world
unchanged. -/
def legacySystem : LegacyExecutableSystem :=
  { components := [0], userCallback := fun w _ _ => w }

/-- A concrete legacy builder over component 0. -/
def legacyBuilder : LegacySystemBuilder :=
  { world := sampleWorld, components := [0] }

/-- A concrete staged builder with no field mappings and no callback. -/
def emptyBuilder : SystemBuilder :=
  { world := sampleWorld, components := [0, 1], fieldMappings := none,
    userCallback := none, conditionPredicate := none }

/-! Basic facts about the byte-level primitives. -/

theorem bytesBE_length (k v : Nat) : (bytesBE k v).length = k := by
  induction k generalizing v with
  | zero => simp [bytesBE]
  | succ n ih => simp [bytesBE, ih]

theorem fromBytesBE_append_singleton (bs : List Nat) (b : Nat) :
    fromBytesBE (bs ++ [b]) = fromBytesBE bs * 256 + b := by
  simp [fromBytesBE, List.foldl_append]

theorem fromBytesBE_bytesBE (k v : Nat) (h : v < 256 ^ k) :
    fromBytesBE (bytesBE k v) = v := by
  induction k generalizing v with
  | zero =>
    simp [bytesBE, fromBytesBE]
    omega
  | succ n ih =>
    have hdiv : v / 256 < 256 ^ n := by
      rw [Nat.div_lt_iff_lt_mul (by norm_num)]
      calc v < 256 ^ (n + 1) := h
        _ = 256 ^ n * 256 := by ring
    rw [bytesBE, fromBytesBE_append_singleton, ih _ hdiv]
    omega

theorem encodeInto_length (schema : Schema) (data : List Nat)
    (hlen : data.length = schema.length) :
    (encodeInto schema data).length = getSchemaSize schema := by
  induction schema generalizing data with
  | nil => cases data <;> simp [encodeInto, getSchemaSize]
  | cons k ks ih =>
    cases data with
    | nil => simp at hlen
    | cons v vs =>
      have : vs.length = ks.length := by simpa using hlen
      simp only [encodeInto, List.length_append, ih vs this]
      simp [getSchemaSize, FieldKind.write, bytesBE_length]

theorem decodeFields_encodeInto (schema : Schema) (data : List Nat)
    (hlen : data.length = schema.length)
    (hrange : ∀ p ∈ schema.zip data, p.2 < p.1.bound) :
    decodeFields schema (encodeInto schema data) = data := by
  induction schema generalizing data with
  | nil => cases data <;> simp_all [decodeFields, encodeInto]
  | cons k ks ih =>
    cases data with
    | nil => simp at hlen
    | cons v vs =>
      have hlen' : vs.length = ks.length := by simpa using hlen
      have hv : v < k.bound := hrange (k, v) (by simp)
      have hv' : v < 256 ^ k.size := by
        cases k <;> simpa [FieldKind.bound, FieldKind.size] using hv
      have hwlen : (k.write v).length = k.size := by
        simp [FieldKind.write, bytesBE_length]
      have h1 : k.read (k.write v ++ encodeInto ks vs) = v := by
        have ht : (k.write v ++ encodeInto ks vs).take k.size = k.write v := by
          rw [← hwlen, List.take_left]
        rw [FieldKind.read, ← hwlen] at *
        rw [ht, FieldKind.write, fromBytesBE_bytesBE _ _ hv']
      have h2 : (k.write v ++ encodeInto ks vs).drop k.size =
          encodeInto ks vs := by
        rw [← hwlen, List.drop_left]
      simp only [encodeInto, decodeFields, h1, h2]
      rw [ih vs hlen' (fun p hp => hrange p (by simp [hp]))]

/-- Claim C8: `BaseBinaryCodec.decodeInto` raises exactly when the buffer is
smaller than the total byte size of the schema, and in that case the target object
is left completely unmutated (the size check precedes the read loop). -/
theorem decodeInto_undersized_iff (schema : Schema) (buf target : List Nat) :
    ((decodeInto schema buf target).1.isSome ↔
      buf.length < getSchemaSize schema) ∧
    ((decodeInto schema buf target).1.isSome →
      (decodeInto schema buf target).2 = target) := by
  simp only [decodeInto]
  by_cases h : buf.length < getSchemaSize schema <;> simp [h]

/-- Claim C8 witness: a 3-byte schema (`u8` + `u16`) rejects a 2-byte buffer and
leaves the target `[7, 7]` untouched, while a 3-byte buffer is accepted. -/
theorem decodeInto_undersized_iff_witness :
    (decodeInto [FieldKind.u8, FieldKind.u16] [1, 2] [7, 7]).1.isSome = true ∧
    (decodeInto [FieldKind.u8, FieldKind.u16] [1, 2] [7, 7]).2 = [7, 7] ∧
    (decodeInto [FieldKind.u8, FieldKind.u16] [1, 2, 3] [7, 7]).1.isSome
      = false := by
  have h := decodeInto_undersized_iff [FieldKind.u8, FieldKind.u16]
    [1, 2] [7, 7]
  have hlt : ([1, 2] : List Nat).length <
      getSchemaSize [FieldKind.u8, FieldKind.u16] := by
    simp [getSchemaSize, FieldKind.size]
  refine ⟨by simpa using h.1.mpr hlt, h.2 (h.1.mpr hlt), by decide⟩

/-- Claim C10: for every schema built from the `BinaryCodec` primitives and every
in-range data object, `encode` yields a buffer whose byte length is the sum
of the field sizes, and `decode` of that buffer recovers the original field
values (`f32` values are modelled at 32-bit pattern level, i.e. exactly
representable floats). -/
theorem encode_decode_roundtrip (schema : Schema) (data target : List Nat)
    (hlen : data.length = schema.length)
    (hrange : ∀ p ∈ schema.zip data, p.2 < p.1.bound) :
    (encodeInto schema data).length = getSchemaSize schema ∧
    decodeInto schema (encodeInto schema data) target = (none, data) := by
  have hsize := encodeInto_length schema data hlen
  refine ⟨hsize, ?_⟩
  unfold decodeInto
  rw [hsize]
  simp [decodeFields_encodeInto schema data hlen hrange]

/-- Claim C10 witness: a `u8`/`u16`/`f32` schema with boundary values (255, 65535,
and the bit pattern `0xBF800000` of the float `-1.0`) encodes into 7 bytes
and decodes back to the original data. -/
theorem encode_decode_roundtrip_witness :
    (encodeInto [FieldKind.u8, FieldKind.u16, FieldKind.f32]
        [255, 65535, 3212836864]).length =
      getSchemaSize [FieldKind.u8, FieldKind.u16, FieldKind.f32] ∧
    decodeInto [FieldKind.u8, FieldKind.u16, FieldKind.f32]
        (encodeInto [FieldKind.u8, FieldKind.u16, FieldKind.f32]
          [255, 65535, 3212836864]) [0, 0, 0] =
      (none, [255, 65535, 3212836864]) :=
  encode_decode_roundtrip [FieldKind.u8, FieldKind.u16, FieldKind.f32]
    [255, 65535, 3212836864] [0, 0, 0] (by decide)
    (by decide)

/-! Facts about canonicalization and the cache invariant. -/

theorem maskOfList_insertSorted (x : Nat) (l : List Nat) :
    maskOfList (insertSorted x l) = (1 <<< x) ||| maskOfList l := by
  induction l with
  | nil => rfl
  | cons y ys ih =>
    by_cases h : x ≤ y
    · simp [insertSorted, h, maskOfList]
    · simp only [insertSorted, h, if_false, maskOfList, List.foldr_cons]
      show (1 <<< y) ||| maskOfList (insertSorted x ys) = _
      rw [ih]
      show (1 <<< y) ||| ((1 <<< x) ||| maskOfList ys) = _
      rw [← Nat.lor_assoc, Nat.lor_comm (1 <<< y) (1 <<< x), Nat.lor_assoc]
      rfl

theorem maskOfList_canonicalKey (cs : List Nat) :
    maskOfList (canonicalKey cs) = maskOfList cs := by
  induction cs with
  | nil => rfl
  | cons c rest ih =>
    show maskOfList (insertSorted c (canonicalKey rest)) = _
    rw [maskOfList_insertSorted, ih]
    rfl

theorem matching_cache_irrelevant (w : World) (c' : List (List Nat × Nat × List Nat)) (mask : Nat) :
    World.matching { w with cache := c' } mask = w.matching mask := rfl

theorem queryByMaskKey_world (w : World) (key : List Nat) (mask : Nat) :
    ∃ c', (w.queryByMaskKey key mask).2 = { w with cache := c' } := by
  unfold World.queryByMaskKey
  split
  · split
    · exact ⟨w.cache, rfl⟩
    · exact ⟨_, rfl⟩
  · exact ⟨_, rfl⟩

theorem queryByMaskKey_result (w : World) (key : List Nat) (mask : Nat)
    (hok : w.cacheOK) (hmask : mask = maskOfList key) :
    (w.queryByMaskKey key mask).1 = w.matching mask := by
  unfold World.queryByMaskKey
  split
  case h_1 ent hfind =>
    have hmem : ent ∈ w.cache := List.mem_of_find?_eq_some hfind
    have hkey : ent.1 = key := by
      have := List.find?_some hfind
      simpa using this
    split
    case isTrue hv =>
      have hv' : ent.2.1 = w.version := by simpa using hv
      have := (hok ent hmem).2 hv'
      rw [this, hkey, hmask]
    case isFalse hv => rfl
  case h_2 => rfl

theorem queryByMaskKey_cacheOK (w : World) (key : List Nat) (mask : Nat)
    (hok : w.cacheOK) (hmask : mask = maskOfList key) :
    (w.queryByMaskKey key mask).2.cacheOK := by
  unfold World.queryByMaskKey
  split
  · split
    · exact hok
    · intro ent' hmem
      rcases List.mem_cons.mp hmem with heq | hmem2
      · subst heq
        exact ⟨le_refl _, fun _ => by rw [hmask]; rfl⟩
      · have := hok _ hmem2
        exact ⟨this.1, fun h => by rw [this.2 h]; rfl⟩
  · intro ent' hmem
    rcases List.mem_cons.mp hmem with heq | hmem2
    · subst heq
      exact ⟨le_refl _, fun _ => by rw [hmask]; rfl⟩
    · have := hok _ hmem2
      exact ⟨this.1, fun h => by rw [this.2 h]; rfl⟩

/-! Facts about pair canonicalization and structural mutation. -/

theorem canonicalKey_pair (a b : Nat) :
    canonicalKey [a, b] = if a ≤ b then [a, b] else [b, a] := by
  by_cases h : a ≤ b <;> simp [canonicalKey, insertSorted, h]

theorem maskOfList_pair (a b : Nat) :
    maskOfList [a, b] = maskOfList [b, a] := by
  show (1 <<< a) ||| ((1 <<< b) ||| 0) = (1 <<< b) ||| ((1 <<< a) ||| 0)
  simp [Nat.lor_comm]

theorem canonicalKey_pair_comm (a b : Nat) :
    canonicalKey [a, b] = canonicalKey [b, a] := by
  rw [canonicalKey_pair, canonicalKey_pair]
  rcases Nat.le_total a b with h | h
  · by_cases h2 : b ≤ a
    · have hab : a = b := Nat.le_antisymm h h2
      subst hab
      simp
    · simp [h, h2]
  · by_cases h2 : a ≤ b
    · have hab : a = b := Nat.le_antisymm h2 h
      subst hab
      simp
    · simp [h, h2]

theorem cacheOK_bump (w w' : World) (hc : w'.cache = w.cache)
    (hv : w'.version = w.version + 1) (hok : w.cacheOK) : w'.cacheOK := by
  intro ent hmem
  rw [hc] at hmem
  obtain ⟨h1, _⟩ := hok ent hmem
  exact ⟨by omega, fun heq => absurd heq (by omega)⟩

/-- Claim C3: `query` is commutative in its arguments — `query(A,B)` and
`query(B,A)` canonicalize to the same cache key (sorted by assigned bit
index) and the same query mask, hence return the same result; and systems
compiled over `(A,B)` and `(B,A)` carry the same canonical query key. -/
theorem query_commutative (a b : Nat) (w : World)
    (fm : List (String × List String)) (cb : World → Nat → Int → World)
    (pred : Option (World → Nat → Bool)) :
    canonicalKey [a, b] = canonicalKey [b, a] ∧
    maskOfList [a, b] = maskOfList [b, a] ∧
    w.query [a, b] = w.query [b, a] ∧
    (SystemBuilder.buildAndRegister
        { world := w, components := [a, b], fieldMappings := some fm,
          userCallback := some cb, conditionPredicate := pred }).map
        (fun r => r.1.queryMaskKey) =
      (SystemBuilder.buildAndRegister
        { world := w, components := [b, a], fieldMappings := some fm,
          userCallback := some cb, conditionPredicate := pred }).map
        (fun r => r.1.queryMaskKey) := by
  have hkey := canonicalKey_pair_comm a b
  have hmask := maskOfList_pair a b
  refine ⟨hkey, hmask, ?_, ?_⟩
  · show w.queryByMaskKey (canonicalKey [a, b]) (maskOfList [a, b]) =
      w.queryByMaskKey (canonicalKey [b, a]) (maskOfList [b, a])
    rw [hkey, hmask]
  · simp only [SystemBuilder.buildAndRegister, ExecutableSystem.construct,
      createProxyEntity, Except.map, hkey]

/-- Claim C2: under the cache-validity invariant, a `query` returns exactly the
currently matching entity list, so two consecutive queries with no
intervening structural mutation return equal lists; a cache entry whose
captured version equals the current version is served as-is without
recomputation; and each structural mutation (add, remove, spawn, despawn)
is reflected by the very next query. -/
theorem query_cache_correct (w : World) (cs : List Nat) (hok : w.cacheOK) :
    (w.query cs).1 = w.matching (maskOfList cs) ∧
    ((w.query cs).2.query cs).1 = (w.query cs).1 ∧
    (∀ ent, w.cache.find? (fun x => x.1 == canonicalKey cs) = some ent →
      ent.2.1 = w.version →
      (w.query cs).1 = ent.2.2 ∧ (w.query cs).2 = w) ∧
    (∀ e c d,
      ((w.add e c d).query cs).1 = (w.add e c d).matching (maskOfList cs)) ∧
    (∀ e c,
      ((w.remove e c).query cs).1 = (w.remove e c).matching (maskOfList cs)) ∧
    (∀ e w', w.spawn = .ok (e, w') →
      (w'.query cs).1 = w'.matching (maskOfList cs)) ∧
    (∀ e w', w.despawn e = .ok w' →
      (w'.query cs).1 = w'.matching (maskOfList cs)) := by
  have hmask : maskOfList cs = maskOfList (canonicalKey cs) :=
    (maskOfList_canonicalKey cs).symm
  refine ⟨queryByMaskKey_result w _ _ hok hmask, ?_, ?_, ?_, ?_, ?_, ?_⟩
  · obtain ⟨c', hc'⟩ := queryByMaskKey_world w (canonicalKey cs)
      (maskOfList cs)
    have hok2 : (w.query cs).2.cacheOK :=
      queryByMaskKey_cacheOK w _ _ hok hmask
    have h2 := queryByMaskKey_result (w.query cs).2 (canonicalKey cs)
      (maskOfList cs) hok2 hmask
    have h1 := queryByMaskKey_result w (canonicalKey cs)
      (maskOfList cs) hok hmask
    show ((w.query cs).2.query cs).1 = (w.query cs).1
    rw [World.query, h2]
    show World.matching (w.queryByMaskKey (canonicalKey cs)
      (maskOfList cs)).2 (maskOfList cs) =
      (w.queryByMaskKey (canonicalKey cs) (maskOfList cs)).1
    rw [hc', h1]
    rfl
  · intro ent hfind hv
    constructor
    · show (w.queryByMaskKey (canonicalKey cs) (maskOfList cs)).1 = ent.2.2
      unfold World.queryByMaskKey
      rw [hfind]
      simp [hv]
    · show (w.queryByMaskKey (canonicalKey cs) (maskOfList cs)).2 = w
      unfold World.queryByMaskKey
      rw [hfind]
      simp [hv]
  · intro e c d
    have hok' : (w.add e c d).cacheOK :=
      cacheOK_bump w (w.add e c d) rfl rfl hok
    exact queryByMaskKey_result _ _ _ hok' hmask
  · intro e c
    have hok' : (w.remove e c).cacheOK :=
      cacheOK_bump w (w.remove e c) rfl rfl hok
    exact queryByMaskKey_result _ _ _ hok' hmask
  · intro e w' hs
    unfold World.spawn at hs
    rcases hfl : w.freeList with _ | ⟨x, rest⟩
    · rw [hfl] at hs
      exact absurd hs (by simp)
    · rw [hfl] at hs
      simp only [Except.ok.injEq, Prod.mk.injEq] at hs
      obtain ⟨_, hw⟩ := hs
      have hok' : w'.cacheOK := cacheOK_bump w w'
        (by rw [← hw]) (by rw [← hw]) hok
      exact queryByMaskKey_result _ _ _ hok' hmask
  · intro e w' hd
    unfold World.despawn at hd
    by_cases hal : w.isAliveB e
    · rw [if_pos hal] at hd
      simp only [Except.ok.injEq] at hd
      have hok' : w'.cacheOK := cacheOK_bump w w'
        (by rw [← hd]) (by rw [← hd]) hok
      exact queryByMaskKey_result _ _ _ hok' hmask
    · rw [if_neg hal] at hd
      exact absurd hd (by simp)

/-- Claim C2 witness: the sample world has a valid (empty) cache; a query for
components 0 and 1 returns exactly the currently matching list, which is
`[0]`. -/
theorem query_cache_correct_witness :
    sampleWorld.cacheOK ∧
    (sampleWorld.query [0, 1]).1 =
      sampleWorld.matching (maskOfList [0, 1]) ∧
    (sampleWorld.query [0, 1]).1 = [0] := by
  have hok : sampleWorld.cacheOK := by
    intro ent hmem
    simp [sampleWorld] at hmem
  have h := query_cache_correct sampleWorld [0, 1] hok
  refine ⟨hok, h.1, ?_⟩
  rw [h.1]
  decide

/-! Facts about the execute loops. -/

theorem execFast_eq_specLoop (cb : World → Nat → Int → World)
    (proxy : Nat) (dt : Int) (es : List Nat) (w : World) :
    execFast cb proxy dt es w = execSpecLoop none cb proxy dt es w := by
  induction es generalizing w with
  | nil => rfl
  | cons e rest ih => simp [execFast, execSpecLoop, ih]

theorem execFiltered_eq_specLoop (p : World → Nat → Bool)
    (cb : World → Nat → Int → World) (proxy : Nat) (dt : Int)
    (es : List Nat) (w : World) :
    execFiltered p cb proxy dt es w =
      execSpecLoop (some p) cb proxy dt es w := by
  induction es generalizing w with
  | nil => rfl
  | cons e rest ih =>
    simp only [execFiltered, execSpecLoop]
    by_cases h : p w e <;> simp [h, ih]

theorem execFast_events (cb : World → Nat → Int → World)
    (proxy : Nat) (dt : Int) (es : List Nat) (w : World) :
    setEids (execFast cb proxy dt es w).2 = es ∧
    ((callProxies (execFast cb proxy dt es w).2).all (· == proxy)) = true ∧
    ((callRecords (execFast cb proxy dt es w).2).all
      (fun r => r.2 == dt)) = true ∧
    (execFast cb proxy dt es w).2.countP isFetch = 0 ∧
    (execFast cb proxy dt es w).2.countP isAllocProxy = 0 := by
  induction es generalizing w with
  | nil => simp [execFast, setEids, callProxies, callRecords]
  | cons e rest ih =>
    have h := ih (cb w e dt)
    simp only [execFast, setEids, callProxies, callRecords,
      List.filterMap_cons, List.all_cons, List.countP_cons] at *
    simp_all [isFetch, isAllocProxy]

theorem execFiltered_events (p : World → Nat → Bool)
    (cb : World → Nat → Int → World) (proxy : Nat) (dt : Int)
    (es : List Nat) (w : World) :
    setEids (execFiltered p cb proxy dt es w).2 = es ∧
    ((callProxies (execFiltered p cb proxy dt es w).2).all
      (· == proxy)) = true ∧
    ((callRecords (execFiltered p cb proxy dt es w).2).all
      (fun r => r.2 == dt)) = true ∧
    (execFiltered p cb proxy dt es w).2.countP isFetch = 0 ∧
    (execFiltered p cb proxy dt es w).2.countP isAllocProxy = 0 := by
  induction es generalizing w with
  | nil => simp [execFiltered, setEids, callProxies, callRecords]
  | cons e rest ih =>
    by_cases hp : p w e
    · have h := ih (cb w e dt)
      simp only [execFiltered, hp, if_true, setEids, callProxies,
        callRecords, List.filterMap_cons, List.all_cons,
        List.countP_cons] at *
      simp_all [isFetch, isAllocProxy]
    · have h := ih w
      simp only [execFiltered, hp, if_false, setEids, callProxies,
        callRecords, List.filterMap_cons, List.all_cons,
        List.countP_cons] at *
      simp_all [isFetch, isAllocProxy]

/-- Claim C1: `ExecutableSystem.execute(deltaTime)` fetches the matching entity
list exactly once and coincides — world effect and full event trace — with
the one-loop spec rendering: for each fetched entity in list order the
cursor index is set, the optional predicate is evaluated on the cursor, and
the user callback is invoked (with the cursor proxy, the deltaTime and the
owning world) precisely when there is no predicate or it returned true;
every callback invocation carries the deltaTime argument unchanged. -/
theorem execute_refines_spec (sys : ExecutableSystem) (w : World)
    (dt : Int) :
    sys.execute w dt = sys.executeSpec w dt ∧
    (sys.execute w dt).2.countP isFetch = 1 ∧
    ((callRecords (sys.execute w dt).2).all (fun r => r.2 == dt)) = true := by
  rcases hp : sys.conditionPredicate with _ | p
  · have he := execFast_eq_specLoop sys.userCallback sys.proxyId dt
      (w.queryByMaskKey sys.queryMaskKey sys.queryMask).1
      (w.queryByMaskKey sys.queryMaskKey sys.queryMask).2
    have hev := execFast_events sys.userCallback sys.proxyId dt
      (w.queryByMaskKey sys.queryMaskKey sys.queryMask).1
      (w.queryByMaskKey sys.queryMaskKey sys.queryMask).2
    simp only [ExecutableSystem.execute, ExecutableSystem.executeSpec, hp]
    refine ⟨by rw [he], ?_, ?_⟩
    · simp [List.countP_cons, isFetch, hev.2.2.2.1]
    · exact hev.2.2.1
  · have he := execFiltered_eq_specLoop p sys.userCallback sys.proxyId dt
      (w.queryByMaskKey sys.queryMaskKey sys.queryMask).1
      (w.queryByMaskKey sys.queryMaskKey sys.queryMask).2
    have hev := execFiltered_events p sys.userCallback sys.proxyId dt
      (w.queryByMaskKey sys.queryMaskKey sys.queryMask).1
      (w.queryByMaskKey sys.queryMaskKey sys.queryMask).2
    simp only [ExecutableSystem.execute, ExecutableSystem.executeSpec, hp]
    refine ⟨by rw [he], ?_, ?_⟩
    · simp [List.countP_cons, isFetch, hev.2.2.2.1]
    · exact hev.2.2.1

theorem matching_sorted (w : World) (mask : Nat) :
    (w.matching mask).Pairwise (· < ·) :=
  List.Pairwise.filter _ (List.pairwise_lt_range w.maxEntities)

/-- Claim C9: the entity list is fetched once as a snapshot before the loop, and
the cursor visits exactly that snapshot in order no matter what the
callback does to the world (a despawn from inside the callback removes
nothing from the remainder of that same loop); the snapshot is in ascending
entity-identifier order; an entity that is dead is excluded from any query
computed on that world; and a repeated query with no structural change in
between returns the same list. -/
theorem execute_snapshot_semantics (sys : ExecutableSystem) (w : World)
    (dt : Int) (hok : w.cacheOK)
    (hmask : sys.queryMask = maskOfList sys.queryMaskKey) :
    setEids (sys.execute w dt).2 =
      (w.queryByMaskKey sys.queryMaskKey sys.queryMask).1 ∧
    (w.queryByMaskKey sys.queryMaskKey sys.queryMask).1.Pairwise (· < ·) ∧
    (∀ (w' : World) (e : Nat) (cs : List Nat),
      w'.cacheOK → w'.isAliveB e = false → e ∉ (w'.query cs).1) ∧
    (∀ cs, ((w.query cs).2.query cs).1 = (w.query cs).1) := by
  refine ⟨?_, ?_, ?_, ?_⟩
  · rcases hp : sys.conditionPredicate with _ | p
    · simp only [ExecutableSystem.execute, hp]
      exact (execFast_events sys.userCallback sys.proxyId dt
        (w.queryByMaskKey sys.queryMaskKey sys.queryMask).1
        (w.queryByMaskKey sys.queryMaskKey sys.queryMask).2).1
    · simp only [ExecutableSystem.execute, hp]
      exact (execFiltered_events p sys.userCallback sys.proxyId dt
        (w.queryByMaskKey sys.queryMaskKey sys.queryMask).1
        (w.queryByMaskKey sys.queryMaskKey sys.queryMask).2).1
  · rw [queryByMaskKey_result w _ _ hok hmask]
    exact matching_sorted w _
  · intro w' e cs hok' hdead
    have hres := queryByMaskKey_result w' (canonicalKey cs)
      (maskOfList cs) hok' (maskOfList_canonicalKey cs).symm
    show e ∉ (w'.queryByMaskKey (canonicalKey cs) (maskOfList cs)).1
    rw [hres]
    intro hmem
    have h2 := (List.mem_filter.mp hmem).2
    rw [Bool.and_eq_true] at h2
    rw [hdead] at h2
    exact Bool.false_ne_true h2.1
  · intro cs
    have hmask2 : maskOfList cs = maskOfList (canonicalKey cs) :=
      (maskOfList_canonicalKey cs).symm
    obtain ⟨c', hc'⟩ := queryByMaskKey_world w (canonicalKey cs)
      (maskOfList cs)
    have hok2 : (w.query cs).2.cacheOK :=
      queryByMaskKey_cacheOK w _ _ hok hmask2
    have h2 := queryByMaskKey_result (w.query cs).2 (canonicalKey cs)
      (maskOfList cs) hok2 hmask2
    have h1 := queryByMaskKey_result w (canonicalKey cs)
      (maskOfList cs) hok hmask2
    show ((w.query cs).2.query cs).1 = (w.query cs).1
    rw [World.query, h2]
    show World.matching (w.queryByMaskKey (canonicalKey cs)
      (maskOfList cs)).2 (maskOfList cs) =
      (w.queryByMaskKey (canonicalKey cs) (maskOfList cs)).1
    rw [hc', h1]
    rfl

/-- Claim C9 witness: on the sample world, the system whose callback despawns the
cursor entity still visits the full snapshot `[0, 1]` — despawning entity 0
during the loop does not remove entity 1 from the remainder. -/
theorem execute_snapshot_semantics_witness :
    sampleWorld.cacheOK ∧
    despawnSystem.queryMask = maskOfList despawnSystem.queryMaskKey ∧
    setEids (despawnSystem.execute sampleWorld 1).2 =
      (sampleWorld.queryByMaskKey despawnSystem.queryMaskKey
        despawnSystem.queryMask).1 ∧
    setEids (despawnSystem.execute sampleWorld 1).2 = [0, 1] := by
  have hok : sampleWorld.cacheOK := by
    intro ent hmem
    simp [sampleWorld] at hmem
  have hmask : despawnSystem.queryMask =
      maskOfList despawnSystem.queryMaskKey := rfl
  have h := execute_snapshot_semantics despawnSystem sampleWorld 1 hok hmask
  refine ⟨hok, hmask, h.1, ?_⟩
  rw [h.1]
  decide

theorem execute_proxies (sys : ExecutableSystem) (w : World) (dt : Int) :
    ((callProxies (sys.execute w dt).2).all (· == sys.proxyId)) = true ∧
    (sys.execute w dt).2.countP isAllocProxy = 0 := by
  rcases hp : sys.conditionPredicate with _ | p
  · have hev := execFast_events sys.userCallback sys.proxyId dt
      (w.queryByMaskKey sys.queryMaskKey sys.queryMask).1
      (w.queryByMaskKey sys.queryMaskKey sys.queryMask).2
    simp only [ExecutableSystem.execute, hp]
    exact ⟨hev.2.1,
      by simp [List.countP_cons, isAllocProxy, hev.2.2.2.2]⟩
  · have hev := execFiltered_events p sys.userCallback sys.proxyId dt
      (w.queryByMaskKey sys.queryMaskKey sys.queryMask).1
      (w.queryByMaskKey sys.queryMaskKey sys.queryMask).2
    simp only [ExecutableSystem.execute, hp]
    exact ⟨hev.2.1,
      by simp [List.countP_cons, isAllocProxy, hev.2.2.2.2]⟩

/-- Claim C4 counterexample: the legacy executable system constructs its proxy
inside `execute` — the first execute call on the sample world creates
proxy 0 and passes it to both callback invocations, a second execute call
creates and passes a distinct proxy 1, and each execute call performs one
proxy construction; so for this compiled system the cursor view is neither
created at system-build time nor identical across execute calls. -/
theorem cursor_view_counterexample :
    callProxies (legacySystem.execute sampleWorld 1 0).1.2 = [0, 0] ∧
    (legacySystem.execute sampleWorld 1 0).2 = 1 ∧
    callProxies ((legacySystem.execute
      (legacySystem.execute sampleWorld 1 0).1.1 1 1).1.2) = [1, 1] ∧
    ((legacySystem.execute sampleWorld 1 0).1.2.countP isAllocProxy)
      = 1 := by
  decide

/-- Claim C4 amended: for the current `ExecutableSystem`, the constructor creates
the cursor view exactly once at system-build time; every callback
invocation in every execute call receives that one stored proxy, and
execute itself constructs no proxy object at all (in particular none per
entity). -/
theorem cursor_view_created_once (components key : List Nat) (mask : Nat)
    (pred : Option (World → Nat → Bool)) (cb : World → Nat → Int → World)
    (alloc : Nat) (w : World) (dt : Int) :
    (ExecutableSystem.construct components key mask pred cb alloc).2 =
      alloc + 1 ∧
    (ExecutableSystem.construct components key mask pred cb
      alloc).1.proxyId = alloc ∧
    ((callProxies (((ExecutableSystem.construct components key mask pred cb
        alloc).1.execute w dt)).2).all (· == alloc)) = true ∧
    (((ExecutableSystem.construct components key mask pred cb
        alloc).1.execute w dt)).2.countP isAllocProxy = 0 := by
  have h := execute_proxies
    (ExecutableSystem.construct components key mask pred cb alloc).1 w dt
  exact ⟨rfl, rfl, h.1, h.2⟩

/-- Claim C5 counterexample: the legacy builder stage `with` mutates the receiver
in place (the receiver components become the new list) and returns the
receiver itself, so a shared builder instance is mutated by invoking a
stage on it. -/
theorem builder_stage_mutation_counterexample :
    (legacyBuilder.withComponents [1, 2]).resultIsReceiver = true ∧
    (legacyBuilder.withComponents [1, 2]).receiver.components = [1, 2] ∧
    legacyBuilder.components = [0] :=
  ⟨rfl, rfl, rfl⟩

/-- Claim C5 amended: each stage of the current `SystemBuilder` (query, fields,
when, run) returns a freshly constructed builder or compilation result and
leaves the receiver state — world, components, fieldMappings, userCallback,
conditionPredicate — untouched; only the legacy builder stage `with`
mutates its receiver. -/
theorem builder_stages_pure (b : SystemBuilder) (cs : List Nat)
    (fm : List (String × List String)) (p : World → Nat → Bool)
    (cb : World → Nat → Int → World) :
    (b.query cs).receiver = b ∧
    (b.query cs).resultIsReceiver = false ∧
    (b.fields fm).receiver = b ∧
    (b.fields fm).resultIsReceiver = false ∧
    (∀ s, b.when p = .ok s →
      s.receiver = b ∧ s.resultIsReceiver = false) ∧
    (b.run cb).1 = b := by
  refine ⟨rfl, rfl, rfl, rfl, ?_, rfl⟩
  intro s hs
  unfold SystemBuilder.when at hs
  rcases hfm : b.fieldMappings with _ | fm2
  · rw [hfm] at hs
    exact absurd hs (by simp)
  · rw [hfm] at hs
    simp only [Except.ok.injEq] at hs
    subst hs
    exact ⟨rfl, rfl⟩

/-- Claim C6 counterexample: entity 0 of `staleWorld` is alive but lacks
component 0, yet the optimized `EntityHandle` accessors silently touch the
backing arrays — `get` returns the stale row `[9, 9]` instead of failing
with `MissingComponent`, and `update` silently writes field 0 — while the
validated `World.get` does fail. -/
theorem accessor_missing_component_counterexample :
    staleWorld.has 0 0 = false ∧
    EntityHandle.get staleWorld 0 0 = [9, 9] ∧
    (EntityHandle.update staleWorld 0 0 [(0, 5)]).storeGet 0 0 = [5, 9] ∧
    staleWorld.get 0 0 = Except.error EcsError.MissingComponent :=
  ⟨by decide, by decide, by decide, rfl⟩

/-- Claim C6 amended: for every entity lacking a component, the accessors routed
through the validated `World` API — directly or through the delegating
`EntityHandle` variant — fail with `MissingComponent`; the optimized
`EntityHandle` variant bypasses the validation and reads or writes the
backing store directly. -/
theorem accessor_missing_component (w : World) (e c : Nat) (d : List Nat)
    (part : List (Nat × Nat)) (h : w.has e c = false) :
    w.get e c = .error .MissingComponent ∧
    w.getMutable e c = .error .MissingComponent ∧
    w.set e c d = .error .MissingComponent ∧
    w.update e c part = .error .MissingComponent ∧
    EntityHandleV2.get w e c = .error .MissingComponent ∧
    EntityHandleV2.getMutable w e c = .error .MissingComponent ∧
    EntityHandleV2.set w e c d = .error .MissingComponent ∧
    EntityHandleV2.update w e c part = .error .MissingComponent ∧
    EntityHandle.get w e c = w.storeGet c e ∧
    EntityHandle.update w e c part = w.storeUpdate c e part := by
  refine ⟨?_, ?_, ?_, ?_, ?_, ?_, ?_, ?_, rfl, rfl⟩ <;>
    simp [World.get, World.getMutable, World.set, World.update,
      EntityHandleV2.get, EntityHandleV2.getMutable, EntityHandleV2.set,
      EntityHandleV2.update, h]

/-- Claim C6 witness for the amended claim: entity 0 of `staleWorld` lacks
component 0 and the validated accessor fails with `MissingComponent`. -/
theorem accessor_missing_component_witness :
    staleWorld.has 0 0 = false ∧
    staleWorld.get 0 0 = Except.error EcsError.MissingComponent := by
  have h : staleWorld.has 0 0 = false := by decide
  exact ⟨h, (accessor_missing_component staleWorld 0 0 [] [] h).1⟩

/-- Claim C7: builder stages cannot be skipped — `when()` throws unless the
`fields()` stage was completed; `buildAndRegister` throws when the callback
or the field mappings are missing; and a system is registered with the
world only when compilation succeeds, so no partially specified system is
ever registered. -/
theorem stages_cannot_be_skipped (b : SystemBuilder)
    (p : World → Nat → Bool) :
    (b.fieldMappings = none →
      b.when p = .error "Must call .fields() before .when()") ∧
    (b.userCallback = none →
      b.buildAndRegister = .error "System callback must be set") ∧
    (b.userCallback.isSome = true → b.fieldMappings = none →
      b.buildAndRegister = .error "Field mappings must be set") ∧
    (∀ sys w', b.buildAndRegister = .ok (sys, w') →
      b.userCallback.isSome = true ∧ b.fieldMappings.isSome = true ∧
      w'.systems =
        (b.world.query b.components).2.systems ++
          [canonicalKey b.components]) := by
  refine ⟨?_, ?_, ?_, ?_⟩
  · intro hfm
    unfold SystemBuilder.when
    rw [hfm]
  · intro hcb
    unfold SystemBuilder.buildAndRegister
    rw [hcb]
  · intro hcb hfm
    unfold SystemBuilder.buildAndRegister
    rcases hc : b.userCallback with _ | cb
    · rw [hc] at hcb
      exact absurd hcb (by simp)
    · rw [hfm]
  · intro sys w' hok
    unfold SystemBuilder.buildAndRegister at hok
    rcases hc : b.userCallback with _ | cb
    · rw [hc] at hok
      exact absurd hok (by simp)
    · rcases hfm : b.fieldMappings with _ | fm
      · rw [hc, hfm] at hok
        exact absurd hok (by simp)
      · rw [hc, hfm] at hok
        simp only [Except.ok.injEq, Prod.mk.injEq] at hok
        refine ⟨rfl, rfl, ?_⟩
        rw [← hok.2]
